import Mathlib

/-!
Shallow embedding of `src/graspify.py` (GraspifyGPT).

The oracle (`call_gpt`) is an external collaborator: every model below that
consumes oracle output takes the oracle's returned text (the stripped
completion content that `call_gpt` returns) as an explicit argument; a run of
the narrowing loop is driven by a list of successive oracle response texts and
a list of successive user-input lines, both consumed in order.  The prompt
strings sent to the oracle carry no information the model needs, so prompt
construction is not modelled (the arguments that only feed prompts are kept in
the signatures for fidelity).

`ast.literal_eval` followed by the `isinstance(..., list)` check is modelled by
`literalEvalStrList`, restricted to the domain the claims are about: flat
Python list literals of quoted strings (single or double quotes, no escape
sequences, no trailing comma, no adjacent-string concatenation, no non-string
elements).  On that domain it agrees with Python; text outside the domain is
out of the modelled scope.  Exceptions map to `none`.
-/

set_option linter.unusedVariables false

/-- The ASCII whitespace characters stripped by Python `str.strip()` on the
inputs the claims are about. -/
def isWsChar (c : Char) : Bool :=
  c = ' ' || c = '\t' || c = '\n' || c = '\r'

/-- Drop leading whitespace characters from a character list. -/
def skipWsL : List Char → List Char
  | [] => []
  | c :: cs => if isWsChar c then skipWsL cs else c :: cs

/-- Model of Python `str.strip()`: remove leading and trailing whitespace. -/
def stripWS (s : String) : String :=
  String.mk ((skipWsL ((skipWsL s.data).reverse)).reverse)

/-- Model of Python `str.upper()` on the ASCII tokens the claims are about. -/
def pyUpper (s : String) : String :=
  String.mk (s.data.map Char.toUpper)

/-- The single-quote character (written via its code point). -/
def squoteChar : Char := Char.ofNat 39

/-- The backslash character (written via its code point). -/
def backslashChar : Char := Char.ofNat 92

/-- Parse the body of a quoted string up to the closing quote `q`; escape
sequences are outside the modelled domain, so a backslash fails the parse. -/
def parseQuotedBody (q : Char) : List Char → Option (List Char × List Char)
  | [] => none
  | c :: cs =>
    if c = q then some ([], cs)
    else if c = backslashChar then none
    else
      match parseQuotedBody q cs with
      | none => none
      | some (body, rest) => some (c :: body, rest)

/-- Parse one quoted string literal (single- or double-quoted). -/
def parseQuoted : List Char → Option (String × List Char)
  | [] => none
  | c :: cs =>
    if c = squoteChar || c = '"' then
      match parseQuotedBody c cs with
      | none => none
      | some (body, rest) => some (String.mk body, rest)
    else none

/-- Parse the comma-separated quoted items of a list literal up to the closing
bracket, which must be followed only by whitespace.  `fuel` bounds the number
of items; callers pass at least the length of the remaining text. -/
def parseItemsAux : Nat → List Char → List String → Option (List String)
  | 0, _, _ => none
  | fuel + 1, cs, acc =>
    match parseQuoted (skipWsL cs) with
    | none => none
    | some (s, rest) =>
      match skipWsL rest with
      | ']' :: rest2 => if skipWsL rest2 = [] then some ((s :: acc).reverse) else none
      | ',' :: rest2 => parseItemsAux fuel rest2 (s :: acc)
      | _ => none

/-- Parse what follows the opening bracket of a list literal. -/
def parseTail : List Char → Option (List String)
  | ']' :: rest2 => if skipWsL rest2 = [] then some [] else none
  | cs => parseItemsAux (cs.length + 1) cs []

/-- Model of `ast.literal_eval` plus the `isinstance(result, list)` check of
`filter_objects_by_grasp` / `extract_objects_from_choice`, restricted to flat
string-list literals (see the header comment): `some items` when the text is a
well-formed bracketed list of quoted labels, `none` when the strict parse (or
the list check) fails. -/
def literalEvalStrList (s : String) : Option (List String) :=
  match skipWsL s.data with
  | '[' :: rest => parseTail (skipWsL rest)
  | _ => none

/-- Model of `filter_objects_by_grasp` (graspify.py lines 17-50): `objects` and
`grasp_type` only feed the prompt; `response` is the text the oracle returned.
The parsed list is returned verbatim; any parse failure yields `[]`. -/
def filter_objects_by_grasp (objects : List String) (grasp_type response : String) :
    List String :=
  match literalEvalStrList response with
  | some l => l
  | none => []

/-- Model of `extract_objects_from_choice` (graspify.py lines 72-93): it sends
one more oracle request (whose response is `response`) and parses it; parse
failure yields `none`. -/
def extract_objects_from_choice (question user_choice response : String) :
    Option (List String) :=
  literalEvalStrList response

/-- Model of graspify.py line 105: `remaining = [obj for obj in objects if obj
not in excluded]`. -/
def remainingObjects (objects excluded : List String) : List String :=
  objects.filter (fun o => decide (o ∉ excluded))

/-- Modelled from the spec: the fallback tokenizer that §4.1 of the spec
attributes to the Oracle Response Parser ("remove the outer brackets, split
the interior on commas, trim each resulting token, and drop empty tokens"),
after the spec's bracket check.  This code is absent from `graspify.py`; the
definition exists only to state the spec's claim and compare it with the
source's actual behaviour.  `splitOnComma` is its comma splitter. -/
def splitOnComma : List Char → List (List Char)
  | [] => [[]]
  | c :: cs =>
    if c = ',' then [] :: splitOnComma cs
    else
      match splitOnComma cs with
      | [] => [[c]]
      | t :: ts => (c :: t) :: ts

/-- Modelled from the spec: see `splitOnComma`'s doc comment. -/
def specFallbackTokenize (s : String) : List String :=
  let t := (stripWS s).data
  if t.head? = some '[' ∧ t.getLast? = some ']' then
    (((splitOnComma ((t.drop 1).dropLast)).map
        (fun cs => stripWS (String.mk cs))).filter (fun x => decide (x ≠ "")))
  else []

/-- The number of comma characters in a character list. -/
def countComma : List Char → Nat
  | [] => 0
  | c :: cs => (if c = ',' then 1 else 0) + countComma cs

/-- Encoding of one quoted label inside a well-formed bracketed list. -/
def encItem (s : String) : List Char :=
  '"' :: s.data ++ ['"']

/-- Encoding of the comma-separated interior of a well-formed bracketed list
(labels double-quoted, separated by a comma and a space). -/
def encItems : List String → List Char
  | [] => []
  | [s] => encItem s
  | s :: rest => encItem s ++ ',' :: ' ' :: encItems rest

/-- A label that makes its quoted list encoding well formed for the claims:
no quote character, no backslash, no comma. -/
def goodLabel (s : String) : Bool :=
  s.data.all (fun c => !(c = '"') && !(c = backslashChar) && !(c = ','))

/-- `text` is a well-formed bracketed-list text carrying exactly `items`. -/
def wellFormedListText (items : List String) (text : String) : Prop :=
  items ≠ [] ∧ (∀ s ∈ items, goodLabel s = true) ∧
    text = String.mk ('[' :: encItems items ++ [']'])

instance (items : List String) (text : String) :
    Decidable (wellFormedListText items text) := by
  unfold wellFormedListText; infer_instance

/-- Terminal outcomes of a narrowing session, one constructor per `return`
path of `narrow_down_loop` (plus `blocked`, reached when the session is
waiting on an oracle response or a user input that the driving lists do not
contain, or when the step budget of the model runs out). -/
inductive Outcome where
  /-- "✅ Final grasp intention: ..." -/
  | success (item : String)
  /-- "❌ No objects were excluded. Cannot refine further." -/
  | noExclusion
  /-- "❌ We are stuck. The same objects keep repeating. Cannot refine further." -/
  | stuck
  /-- "⚠️ Invalid choice. Exiting." -/
  | invalidChoice
  /-- "⚠️ No items under 'Other'. Cannot refine further." (line 168) -/
  | noOtherItems
  /-- "❌ 'Other' didn't reduce the set. Stopping." -/
  | otherNoReduce
  /-- "❌ This selection is the entire set, no refinement. Stopping." -/
  | noRefinement
  /-- The post-loop branch at line 193 (final item after falling out of the loop). -/
  | fellThroughSuccess (item : String)
  /-- The post-loop branch at line 195: "❌ Could not determine the object or no objects remain." -/
  | fellThroughFailure
  /-- Waiting on an external response the driving lists do not provide. -/
  | blocked
  deriving DecidableEq

/-- Model of the binary prompt `while choice not in ["1", "2"]: choice =
input(...)` (lines 120-122 and 139-141): keep consuming input tokens until a
stripped token equal to "1" or "2" arrives; `none` when the input list is
exhausted first. -/
def askBinary : List String → Option String
  | [] => none
  | t :: ts =>
    if stripWS t = "1" || stripWS t = "2" then some (stripWS t) else askBinary ts

/-- Result of one iteration of the `while excluded:` body: either a `return`
with an outcome, or fall to the next iteration with the new state. -/
inductive IterRes where
  | ret (o : Outcome)
  | cont (excluded : List String) (visited : List (Finset String))
      (oracle : List String) (inputs : List String)
  deriving DecidableEq

/-- One iteration of the `while excluded:` body of `narrow_down_loop`
(graspify.py lines 130-189).  `oracle` holds the texts the oracle returns to
the successive `call_gpt` calls (`categorize_and_ask`, then the call inside
`extract_objects_from_choice`); `inputs` holds the successive user input
lines.  Python `frozenset` snapshots are modelled as `Finset String` and
`set(a) == set(b)` as equality of `toFinset`. -/
def iterStep (excluded : List String) (visited : List (Finset String))
    (oracle inputs : List String) : IterRes :=
  if excluded.length = 1 then .ret (.success (excluded.headD ""))
  else if excluded.length = 2 then
    match askBinary inputs with
    | none => .ret .blocked
    | some c =>
      .ret (.success (if c = "1" then excluded.headD "" else (excluded.drop 1).headD ""))
  else
    if excluded.toFinset ∈ visited then .ret .stuck
    else
      match oracle, inputs with
      | [], _ => .ret .blocked
      | _ :: _, [] => .ret .blocked
      | question :: oracle1, t :: inputs1 =>
        if pyUpper (stripWS t) ∉ (["A", "B", "C", "D"] : List String) then .ret .invalidChoice
        else if pyUpper (stripWS t) = "D" then
          match oracle1 with
          | [] => .ret .blocked
          | r :: oracle2 =>
            match extract_objects_from_choice question "D" r with
            | none => .ret .noOtherItems
            | some l =>
              if l.isEmpty then .ret .noOtherItems
              else if l.toFinset = excluded.toFinset then .ret .otherNoReduce
              else .cont l (excluded.toFinset :: visited) oracle2 inputs1
        else
          match oracle1 with
          | [] => .ret .blocked
          | r :: oracle2 =>
            match extract_objects_from_choice question (pyUpper (stripWS t)) r with
            | none => .cont excluded (excluded.toFinset :: visited) oracle2 inputs1
            | some l =>
              if l.isEmpty then .cont excluded (excluded.toFinset :: visited) oracle2 inputs1
              else if l.toFinset = excluded.toFinset then .ret .noRefinement
              else .cont l (excluded.toFinset :: visited) oracle2 inputs1

/-- The code after the `while` loop (graspify.py lines 191-195). -/
def postLoop (excluded : List String) : Outcome :=
  if excluded ≠ [] ∧ excluded.length = 1 then .fellThroughSuccess (excluded.headD "")
  else .fellThroughFailure

/-- Whether an iteration starting from this state invokes the Partition
Proposer (`categorize_and_ask`), i.e. consumes an oracle response for a
partition question: the state is past the 1- and 2-element shortcuts, the
snapshot is fresh, and an oracle response exists to be consumed. -/
def proposerCalled (excluded : List String) (visited : List (Finset String))
    (oracle : List String) : Bool :=
  decide (excluded.length ≠ 1 ∧ excluded.length ≠ 2 ∧
    excluded.toFinset ∉ visited ∧ oracle ≠ [])

/-- The `while excluded:` loop of `narrow_down_loop`, instrumented: the first
component lists the snapshot of every Candidate Set on which the Partition
Proposer was invoked, in order; the second is the session outcome.  `fuel`
bounds the number of iterations (the source has no such bound; running out is
reported as `blocked`, never as a terminal outcome of the source). -/
def loopRunT : Nat → List String → List (Finset String) → List String → List String →
    List (Finset String) × Outcome
  | 0, _, _, _, _ => ([], .blocked)
  | fuel + 1, excluded, visited, oracle, inputs =>
    if excluded = [] then ([], postLoop excluded)
    else
      match iterStep excluded visited oracle inputs with
      | .ret o =>
        ((if proposerCalled excluded visited oracle then [excluded.toFinset] else []), o)
      | .cont e v or2 in2 =>
        ((if proposerCalled excluded visited oracle then [excluded.toFinset] else []) ++
            (loopRunT fuel e v or2 in2).1,
          (loopRunT fuel e v or2 in2).2)

/-- Model of `narrow_down_loop` (graspify.py lines 95-195): the first oracle
response answers the exclusion request of `filter_objects_by_grasp`; the rest
drive the partition/extraction calls.  Returns the instrumented trace of
partitioned snapshots together with the outcome. -/
def narrow_down_loop (objects : List String) (grasp_type : String)
    (oracle inputs : List String) (fuel : Nat) : List (Finset String) × Outcome :=
  match oracle with
  | [] => ([], .blocked)
  | r0 :: oracle1 =>
    let excluded := filter_objects_by_grasp objects grasp_type r0
    if excluded = [] then ([], .noExclusion)
    else if excluded.length = 1 then ([], .success (excluded.headD ""))
    else if excluded.length = 2 then
      match askBinary inputs with
      | none => ([], .blocked)
      | some c =>
        ([], .success (if c = "1" then excluded.headD "" else (excluded.drop 1).headD ""))
    else loopRunT fuel excluded [] oracle1 inputs

/-! ## Lemmas about the parser model -/

lemma skipWsL_cons_of_not_ws {c : Char} (cs : List Char) (h : isWsChar c = false) :
    skipWsL (c :: cs) = c :: cs := by
  simp [skipWsL, h]

lemma parseQuotedBody_append (q : Char) (s tail : List Char)
    (h : ∀ c ∈ s, c ≠ q ∧ c ≠ backslashChar) :
    parseQuotedBody q (s ++ q :: tail) = some (s, tail) := by
  induction s with
  | nil => simp [parseQuotedBody]
  | cons c cs ih =>
    have hc := h c (by simp)
    have ih2 := ih (fun x hx => h x (by simp [hx]))
    simp [parseQuotedBody, hc.1, hc.2, ih2]

lemma goodLabel_chars {s : String} (h : goodLabel s = true) :
    ∀ c ∈ s.data, c ≠ '"' ∧ c ≠ backslashChar ∧ c ≠ ',' := by
  intro c hc
  have h2 := (List.all_eq_true.mp h) c hc
  simp only [Bool.and_eq_true, decide_eq_true_eq, Bool.not_eq_true', decide_eq_false_iff_not]
    at h2
  exact ⟨h2.1.1, h2.1.2, h2.2⟩

lemma parseQuoted_encItem (s : String) (tail : List Char) (h : goodLabel s = true) :
    parseQuoted (encItem s ++ tail) = some (s, tail) := by
  have hshape : encItem s ++ tail = '"' :: (s.data ++ '"' :: tail) := by
    simp [encItem]
  rw [hshape]
  have hbody : parseQuotedBody '"' (s.data ++ '"' :: tail) = some (s.data, tail) :=
    parseQuotedBody_append '"' s.data tail
      (fun c hc => ⟨(goodLabel_chars h c hc).1, (goodLabel_chars h c hc).2.1⟩)
  simp [parseQuoted, hbody]

lemma parseItemsAux_cons_ws (fuel : Nat) (c : Char) (cs : List Char) (acc : List String)
    (h : isWsChar c = true) :
    parseItemsAux (fuel + 1) (c :: cs) acc = parseItemsAux (fuel + 1) cs acc := by
  have hsk : skipWsL (c :: cs) = skipWsL cs := by simp [skipWsL, h]
  simp only [parseItemsAux, hsk]

lemma parseItemsAux_step_close (fuel : Nat) (cs : List Char) (acc : List String)
    (s : String) (h : parseQuoted (skipWsL cs) = some (s, [']'])) :
    parseItemsAux (fuel + 1) cs acc = some ((s :: acc).reverse) := by
  rw [parseItemsAux, h]
  rfl

lemma parseItemsAux_step_comma (fuel : Nat) (cs : List Char) (acc : List String)
    (s : String) (tail : List Char) (h : parseQuoted (skipWsL cs) = some (s, ',' :: tail)) :
    parseItemsAux (fuel + 1) cs acc = parseItemsAux fuel tail (s :: acc) := by
  rw [parseItemsAux, h]
  rfl

lemma parseItemsAux_enc :
    ∀ (items : List String) (acc : List String) (fuel : Nat),
      items ≠ [] → (∀ s ∈ items, goodLabel s = true) → items.length ≤ fuel →
      parseItemsAux fuel (encItems items ++ [']']) acc = some (acc.reverse ++ items) := by
  intro items
  induction items with
  | nil => intro acc fuel h; exact absurd rfl h
  | cons s tl ih =>
    intro acc fuel _ hgood hfuel
    have hs : goodLabel s = true := hgood s (by simp)
    cases fuel with
    | zero => simp at hfuel
    | succ f =>
      cases tl with
      | nil =>
        have hq : parseQuoted (skipWsL (encItems [s] ++ [']'])) = some (s, [']']) := by
          have h1 : encItems [s] ++ [']'] = encItem s ++ [']'] := by simp [encItems]
          rw [h1]
          have h2 : encItem s ++ [']'] = '"' :: (s.data ++ '"' :: [']']) := by simp [encItem]
          rw [h2, skipWsL_cons_of_not_ws _ (by decide), ← h2]
          exact parseQuoted_encItem s [']'] hs
        rw [parseItemsAux_step_close f _ acc s hq]
        simp
      | cons s2 tl2 =>
        have henc : encItems (s :: s2 :: tl2) ++ [']'] =
            encItem s ++ (',' :: ' ' :: (encItems (s2 :: tl2) ++ [']'])) := by
          simp [encItems]
        have hq : parseQuoted (skipWsL (encItems (s :: s2 :: tl2) ++ [']'])) =
            some (s, ',' :: ' ' :: (encItems (s2 :: tl2) ++ [']'])) := by
          rw [henc]
          have h2 : encItem s ++ (',' :: ' ' :: (encItems (s2 :: tl2) ++ [']'])) =
              '"' :: (s.data ++ '"' :: (',' :: ' ' :: (encItems (s2 :: tl2) ++ [']']))) := by
            simp [encItem]
          rw [h2, skipWsL_cons_of_not_ws _ (by decide), ← h2]
          exact parseQuoted_encItem s _ hs
        rw [parseItemsAux_step_comma f _ acc s _ hq]
        have hf : 1 ≤ f := by
          simp only [List.length_cons] at hfuel
          omega
        cases f with
        | zero => omega
        | succ f2 =>
          rw [parseItemsAux_cons_ws _ _ _ _ (by decide)]
          rw [ih (s :: acc) (f2 + 1) (by simp) (fun x hx => hgood x (by simp [hx]))
            (by simp only [List.length_cons] at hfuel ⊢; omega)]
          simp

lemma length_le_encItems : ∀ items : List String, items.length ≤ (encItems items).length := by
  intro items
  induction items with
  | nil => simp [encItems]
  | cons s tl ih =>
    cases tl with
    | nil => simp [encItems, encItem]
    | cons s2 tl2 =>
      simp only [encItems, encItem, List.length_cons, List.length_append] at ih ⊢
      omega

lemma parseTail_quote (tl : List Char) :
    parseTail ('"' :: tl) = parseItemsAux (tl.length + 2) ('"' :: tl) [] := rfl

lemma literalEval_open (tl : List Char) :
    literalEvalStrList (String.mk ('[' :: tl)) = parseTail (skipWsL tl) := rfl

lemma literalEval_enc (items : List String) (h1 : items ≠ [])
    (h2 : ∀ s ∈ items, goodLabel s = true) :
    literalEvalStrList (String.mk ('[' :: (encItems items ++ [']']))) = some items := by
  obtain ⟨s, tl, rfl⟩ : ∃ s tl, items = s :: tl := by
    cases items with
    | nil => exact absurd rfl h1
    | cons s tl => exact ⟨s, tl, rfl⟩
  have henc : ∃ rest, encItems (s :: tl) ++ [']'] = '"' :: rest := by
    cases tl with
    | nil => exact ⟨s.data ++ ['"'] ++ [']'], by simp [encItems, encItem]⟩
    | cons s2 tl2 =>
      exact ⟨s.data ++ ['"'] ++ (',' :: ' ' :: encItems (s2 :: tl2)) ++ [']'],
        by simp [encItems, encItem]⟩
  obtain ⟨rest, hrest⟩ := henc
  have hskip : skipWsL (encItems (s :: tl) ++ [']']) = '"' :: rest := by
    rw [hrest]; exact skipWsL_cons_of_not_ws _ (by decide)
  rw [literalEval_open, hskip, parseTail_quote, ← hrest]
  rw [parseItemsAux_enc (s :: tl) [] (rest.length + 2) h1 h2 ?_]
  · simp
  · have hle := length_le_encItems (s :: tl)
    have hlen : (encItems (s :: tl)).length + 1 = ('"' :: rest).length := by
      rw [← hrest]; simp
    simp only [List.length_cons] at hlen
    omega

lemma countComma_append (a b : List Char) :
    countComma (a ++ b) = countComma a + countComma b := by
  induction a with
  | nil => simp [countComma]
  | cons c cs ih => simp [countComma, ih]; omega

lemma countComma_eq_zero (l : List Char) (h : ∀ c ∈ l, c ≠ ',') : countComma l = 0 := by
  induction l with
  | nil => rfl
  | cons c cs ih =>
    rw [countComma, if_neg (h c (by simp)), ih (fun x hx => h x (by simp [hx]))]

lemma countComma_encItem (s : String) (hs : ∀ c ∈ s.data, c ≠ ',') :
    countComma (encItem s) = 0 := by
  have hdata : countComma s.data = 0 := countComma_eq_zero s.data hs
  simp [encItem, countComma_append, countComma, hdata]

lemma countComma_encItems :
    ∀ items : List String, (∀ s ∈ items, goodLabel s = true) →
      countComma (encItems items) = items.length - 1 := by
  intro items
  induction items with
  | nil => intro _; simp [encItems, countComma]
  | cons s tl ih =>
    intro hgood
    have hs : ∀ c ∈ s.data, c ≠ ',' := fun c hc =>
      (goodLabel_chars (hgood s (by simp)) c hc).2.2
    have hcount : countComma (encItem s) = 0 := countComma_encItem s hs
    cases tl with
    | nil => simpa [encItems] using hcount
    | cons s2 tl2 =>
      have ih2 := ih (fun x hx => hgood x (by simp [hx]))
      have hshape : encItems (s :: s2 :: tl2) =
          encItem s ++ ',' :: ' ' :: encItems (s2 :: tl2) := by simp [encItems]
      have h1 : countComma (',' :: ' ' :: encItems (s2 :: tl2)) =
          1 + countComma (encItems (s2 :: tl2)) := by
        simp [countComma]
      rw [hshape, countComma_append, hcount, h1]
      simp only [List.length_cons] at ih2 ⊢
      omega

/-! ## Lemmas about the narrowing state machine model -/

lemma iterStep_cont_inv {e e' : List String} {v v' : List (Finset String)}
    {or or' ins ins' : List String}
    (h : iterStep e v or ins = .cont e' v' or' ins') :
    v' = e.toFinset :: v ∧ e.toFinset ∉ v ∧ e.length ≠ 1 ∧ e.length ≠ 2 ∧
      or' = or.drop 2 ∧ ins' = ins.drop 1 ∧ or ≠ [] ∧ (e ≠ [] → e' ≠ []) := by
  unfold iterStep at h
  repeat' split at h
  all_goals cases h
  all_goals simp_all [List.isEmpty_iff]

lemma iterStep_ret_inv {e : List String} {v : List (Finset String)}
    {or ins : List String} {o : Outcome}
    (h : iterStep e v or ins = .ret o) :
    o ≠ .fellThroughFailure ∧ ∀ s, o ≠ .fellThroughSuccess s := by
  unfold iterStep at h
  repeat' split at h
  all_goals cases h
  all_goals exact ⟨by simp, fun s => by simp⟩

lemma proposerCalled_of_cont {e e' : List String} {v v' : List (Finset String)}
    {or or' ins ins' : List String}
    (h : iterStep e v or ins = .cont e' v' or' ins') :
    proposerCalled e v or = true := by
  obtain ⟨_, h2, h3, h4, _, _, h7, _⟩ := iterStep_cont_inv h
  simp [proposerCalled, h2, h3, h4, h7]

lemma loopRunT_trace_fresh :
    ∀ (fuel : Nat) (e : List String) (v : List (Finset String)) (or ins : List String),
      (∀ s ∈ (loopRunT fuel e v or ins).1, s ∉ v) ∧ (loopRunT fuel e v or ins).1.Nodup := by
  intro fuel
  induction fuel with
  | zero => intro e v or ins; simp [loopRunT]
  | succ n ih =>
    intro e v or ins
    rw [loopRunT]
    by_cases he : e = []
    · simp [he]
    · rw [if_neg he]
      rcases hstep : iterStep e v or ins with o | ⟨e2, v2, or2, ins2⟩
      · refine ⟨?_, ?_⟩
        · intro s hs
          by_cases hp : proposerCalled e v or = true
          · rw [if_pos hp] at hs
            simp only [List.mem_singleton] at hs
            subst hs
            have := hp
            simp only [proposerCalled, decide_eq_true_eq] at this
            exact this.2.2.1
          · rw [if_neg hp] at hs
            simp at hs
        · by_cases hp : proposerCalled e v or = true
          · rw [if_pos hp]; exact List.nodup_singleton _
          · rw [if_neg hp]; exact List.nodup_nil
      · obtain ⟨hv2, hnotin, _, _, _, _, _, _⟩ := iterStep_cont_inv hstep
        have hp := proposerCalled_of_cont hstep
        rw [if_pos hp]
        have ih2 := ih e2 v2 or2 ins2
        refine ⟨?_, ?_⟩
        · intro s hs
          simp only [List.cons_append, List.nil_append, List.mem_cons] at hs
          rcases hs with rfl | hs
          · exact hnotin
          · have := ih2.1 s hs
            rw [hv2] at this
            exact fun hin => this (List.mem_cons_of_mem _ hin)
        · simp only [List.cons_append, List.nil_append, List.nodup_cons]
          refine ⟨?_, ih2.2⟩
          intro hmem
          have := ih2.1 _ hmem
          rw [hv2] at this
          exact this (List.mem_cons_self _ _)

lemma loopRunT_no_fallthrough :
    ∀ (fuel : Nat) (e : List String) (v : List (Finset String)) (or ins : List String),
      e ≠ [] →
      (loopRunT fuel e v or ins).2 ≠ .fellThroughFailure ∧
      ∀ s, (loopRunT fuel e v or ins).2 ≠ .fellThroughSuccess s := by
  intro fuel
  induction fuel with
  | zero => intro e v or ins he; simp [loopRunT]
  | succ n ih =>
    intro e v or ins he
    rw [loopRunT, if_neg he]
    rcases hstep : iterStep e v or ins with o | ⟨e2, v2, or2, ins2⟩
    · exact iterStep_ret_inv hstep
    · have he2 : e2 ≠ [] := (iterStep_cont_inv hstep).2.2.2.2.2.2.2 he
      exact ih e2 v2 or2 ins2 he2

/-! ## Claim theorems -/

/-- Claim C1: in the single-set variant the narrowing state machine never
partitions an identical Candidate Set twice: the trace of snapshots on which
the Partition Proposer is invoked is duplicate-free and disjoint from the
Visited-Set History at entry; each continuing iteration records the snapshot
of its Candidate Set into the history; and when the current set's snapshot is
already in the history (at a step past the 1- and 2-element shortcuts) the
iteration returns the cycle-detected terminal failure instead of invoking the
Partition Proposer. -/
theorem never_partitions_same_set_twice (fuel : Nat) (e : List String)
    (v : List (Finset String)) (or ins : List String) :
    (loopRunT fuel e v or ins).1.Nodup ∧
    (∀ s ∈ (loopRunT fuel e v or ins).1, s ∉ v) ∧
    (∀ e' v' or' ins', iterStep e v or ins = .cont e' v' or' ins' →
      v' = e.toFinset :: v ∧ e.toFinset ∉ v) ∧
    (e.toFinset ∈ v → e.length ≠ 1 → e.length ≠ 2 →
      iterStep e v or ins = .ret .stuck) := by
  refine ⟨(loopRunT_trace_fresh fuel e v or ins).2,
    (loopRunT_trace_fresh fuel e v or ins).1, ?_, ?_⟩
  · intro e' v' or' ins' hc
    exact ⟨(iterStep_cont_inv hc).1, (iterStep_cont_inv hc).2.1⟩
  · intro h1 h2 h3
    unfold iterStep
    rw [if_neg h2, if_neg h3, if_pos h1]

/-- Witness for `never_partitions_same_set_twice` at a concrete revisited
set. -/
theorem never_partitions_same_set_twice_w :
    iterStep ["a", "b", "c"] [["a", "b", "c"].toFinset] ["Q"] ["A"] = .ret .stuck :=
  (never_partitions_same_set_twice 3 ["a", "b", "c"] [["a", "b", "c"].toFinset]
    ["Q"] ["A"]).2.2.2 (by decide) (by decide) (by decide)

/-- Claim C8: whenever the parsed exclusion result is empty, the session
returns the no-exclusion terminal failure with an empty partition trace,
independently of the remaining oracle responses and of the user input list
(so no user is prompted and the Partition Proposer is never invoked). -/
theorem empty_exclusion_fails_without_interaction (objects : List String)
    (grasp_type r0 : String) (rest inputs : List String) (fuel : Nat)
    (h : filter_objects_by_grasp objects grasp_type r0 = []) :
    narrow_down_loop objects grasp_type (r0 :: rest) inputs fuel = ([], .noExclusion) := by
  unfold narrow_down_loop
  simp [h]

/-- Witness for `empty_exclusion_fails_without_interaction`. -/
theorem empty_exclusion_fails_without_interaction_w :
    narrow_down_loop ["pen", "hammer"] "power grasp" ["[]", "Q"] ["1"] 4 =
      ([], .noExclusion) :=
  empty_exclusion_fails_without_interaction ["pen", "hammer"] "power grasp" "[]"
    ["Q"] ["1"] 4 (by decide)

/-- Claim C9: entered with a non-empty Candidate Set, the narrowing loop never
produces either post-loop fallback outcome (the set stays non-empty across
every continuing iteration, so the while-condition never becomes false); every
session that enters the loop ends via an explicit in-loop return (or is still
blocked waiting on an external response). -/
theorem loop_candidate_never_empty (fuel : Nat) (e : List String)
    (v : List (Finset String)) (or ins : List String) (he : e ≠ []) :
    (loopRunT fuel e v or ins).2 ≠ .fellThroughFailure ∧
    (∀ s, (loopRunT fuel e v or ins).2 ≠ .fellThroughSuccess s) ∧
    (∀ e' v' or' ins', iterStep e v or ins = .cont e' v' or' ins' → e' ≠ []) := by
  refine ⟨(loopRunT_no_fallthrough fuel e v or ins he).1,
    (loopRunT_no_fallthrough fuel e v or ins he).2, ?_⟩
  intro e' v' or' ins' hc
  exact (iterStep_cont_inv hc).2.2.2.2.2.2.2 he

/-- Witness for `loop_candidate_never_empty`. -/
theorem loop_candidate_never_empty_w :
    (loopRunT 3 ["a", "b"] [] [] ["1"]).2 ≠ .fellThroughFailure :=
  (loop_candidate_never_empty 3 ["a", "b"] [] [] ["1"] (by decide)).1

/-- Claim C3, counterexample: the session does not end in terminal failure on
an unrecognized binary selection token — with an explicitly invalid first
token ("x" is neither a valid binary nor a valid quaternary token), the binary
prompt re-prompts, consumes the next token "1", and the session ends in
success, contradicting "any other token immediately ends the session in
Terminal-Failure with no retry loop". -/
theorem invalid_token_not_fatal_for_binary_choice :
    stripWS "x" ∉ (["1", "2"] : List String) ∧
    pyUpper (stripWS "x") ∉ (["A", "B", "C", "D"] : List String) ∧
    (narrow_down_loop ["pen", "hammer", "key"] "precision grasp"
      ["[\"pen\", \"key\"]"] ["x", "1"] 5).2 = .success "pen" := by decide

/-- Claim C3 as amended: an unrecognized quaternary token (stripped and
uppercased not in A/B/C/D) immediately ends the session in the invalid-choice
terminal failure; but the binary prompt is a retry loop — any token whose
stripped form is neither "1" nor "2" is skipped and the user is re-prompted. -/
theorem invalid_choice_quaternary_fatal_binary_reprompts (e : List String)
    (v : List (Finset String)) (q t : String) (or1 ins1 : List String)
    (h1 : e.length ≠ 1) (h2 : e.length ≠ 2) (h3 : e.toFinset ∉ v)
    (hbad : pyUpper (stripWS t) ∉ (["A", "B", "C", "D"] : List String)) :
    iterStep e v (q :: or1) (t :: ins1) = .ret .invalidChoice ∧
    (∀ (u : String) (us : List String), stripWS u ≠ "1" → stripWS u ≠ "2" →
      askBinary (u :: us) = askBinary us) := by
  constructor
  · unfold iterStep
    rw [if_neg h1, if_neg h2, if_neg h3]
    simp only [if_pos hbad]
  · intro u us hu1 hu2
    simp [askBinary, hu1, hu2]

/-- Witness for `invalid_choice_quaternary_fatal_binary_reprompts`. -/
theorem invalid_choice_quaternary_fatal_binary_reprompts_w :
    iterStep ["a", "b", "c"] [] ["Q"] ["x"] = .ret .invalidChoice ∧
    askBinary ["x", "1"] = askBinary ["1"] :=
  ⟨(invalid_choice_quaternary_fatal_binary_reprompts ["a", "b", "c"] [] "Q" "x" [] []
      (by decide) (by decide) (by decide) (by decide)).1,
    (invalid_choice_quaternary_fatal_binary_reprompts ["a", "b", "c"] [] "Q" "x" [] []
      (by decide) (by decide) (by decide) (by decide)).2 "x" ["1"] (by decide) (by decide)⟩

/-- Claim C4 (the code contradicts it): after the user picks category "A" and
the extraction parse fails, the code prints "Keeping previous list" and
retries — but the retried iteration finds the unchanged set already in the
Visited-Set History (it was snapshotted before the failed attempt) and
terminates with the cycle-detected failure.  Here a second partition question
("Q2"), a parseable extraction response and a further user token were all
available, yet the trace shows the Partition Proposer ran only once and the
outcome is the cycle failure, not a retry of the same Candidate Set. -/
theorem parse_failure_retry_terminates_as_cycle :
    (narrow_down_loop ["a", "b", "c", "d"] "power grasp"
      ["[\"a\", \"b\", \"c\"]", "Q1", "not a list", "Q2", "[\"a\"]"] ["A", "A"] 10).2 =
      .stuck ∧
    (narrow_down_loop ["a", "b", "c", "d"] "power grasp"
      ["[\"a\", \"b\", \"c\"]", "Q1", "not a list", "Q2", "[\"a\"]"] ["A", "A"] 10).1 =
      [["a", "b", "c"].toFinset] := by decide

/-- Claim C5, counterexample: a single completed partition/selection cycle
consumes two oracle responses, not one — starting with a two-entry oracle
stream (partition question plus extraction response), the continuing iteration
leaves the stream empty, whereas one oracle round trip per step would leave
the one-entry remainder. -/
theorem extraction_consumes_second_oracle_call :
    iterStep ["a", "b", "c"] [] ["Q", "[\"a\", \"b\"]"] ["A"] =
      .cont ["a", "b"] [["a", "b", "c"].toFinset] [] [] ∧
    (["Q", "[\"a\", \"b\"]"] : List String).drop 1 ≠ [] := by decide

/-- Claim C5 as amended: every continuing partition/selection iteration
consumes exactly two oracle responses — one for the partition question and one
for extracting the chosen category, which is itself an oracle invocation
(`extract_objects_from_choice` calls the oracle), not a local parse — and
exactly one user input line. -/
theorem continuing_iteration_consumes_two_oracle_responses
    (e e' : List String) (v v' : List (Finset String)) (or or' ins ins' : List String)
    (h : iterStep e v or ins = .cont e' v' or' ins') :
    or' = or.drop 2 ∧ ins' = ins.drop 1 := by
  obtain ⟨_, _, _, _, h5, h6, _, _⟩ := iterStep_cont_inv h
  exact ⟨h5, h6⟩

/-- Witness for `continuing_iteration_consumes_two_oracle_responses`. -/
theorem continuing_iteration_consumes_two_oracle_responses_w :
    ([] : List String) = (["Q", "[\"a\", \"b\"]"] : List String).drop 2 ∧
    ([] : List String) = (["A"] : List String).drop 1 :=
  continuing_iteration_consumes_two_oracle_responses ["a", "b", "c"] ["a", "b"]
    [] [["a", "b", "c"].toFinset] ["Q", "[\"a\", \"b\"]"] [] ["A"] [] (by decide)

/-- Claim C2, counterexample: the Exclusion Filter's returned collection is
not always a subset of its input Candidate Set and can contain duplicate
labels — the parsed oracle response is returned verbatim with no subset or
duplication check, so an oracle response naming a label outside the universe
twice becomes the Candidate Set as is. -/
theorem filter_output_not_subset_of_universe :
    filter_objects_by_grasp ["pen", "hammer"] "power grasp" "[\"zebra\", \"zebra\"]" =
      ["zebra", "zebra"] ∧
    "zebra" ∉ (["pen", "hammer"] : List String) ∧
    ¬ (["zebra", "zebra"] : List String).Nodup := by decide

/-- Claim C2 as amended: the complement list `remaining` is always a subset of
the universe, but the Exclusion Filter returns the parsed oracle list verbatim
(and the choice extractor likewise), so the Candidate Set is a subset of the
original universe, and duplicate-free, only when the oracle's parsed output
is. -/
theorem remaining_subset_filter_verbatim (objects : List String)
    (grasp_type response : String) :
    (∀ x ∈ remainingObjects objects (filter_objects_by_grasp objects grasp_type response),
      x ∈ objects) ∧
    (∀ l, literalEvalStrList response = some l →
      filter_objects_by_grasp objects grasp_type response = l) := by
  constructor
  · intro x hx
    exact (List.mem_filter.mp hx).1
  · intro l hl
    unfold filter_objects_by_grasp
    rw [hl]

/-- Witness for `remaining_subset_filter_verbatim`. -/
theorem remaining_subset_filter_verbatim_w :
    filter_objects_by_grasp ["pen", "hammer"] "g" "[\"pen\"]" = ["pen"] :=
  (remaining_subset_filter_verbatim ["pen", "hammer"] "g" "[\"pen\"]").2 ["pen"] (by decide)

/-- Claim C6, counterexample: parsed elements are not trimmed of surrounding
whitespace — on the well-formed bracketed list whose single label is `" a "`
(padding inside the quotes), the parser returns the padded label verbatim. -/
theorem parsed_elements_not_trimmed :
    wellFormedListText [" a "] "[\" a \"]" ∧
    filter_objects_by_grasp ["pen"] "g" "[\" a \"]" = [" a "] ∧
    stripWS " a " ≠ " a " := by decide

/-- Claim C6 as amended: for well-formed bracketed-list oracle text (a
bracketed, comma-and-space separated sequence of quoted labels containing no
quote, backslash or comma characters), the parser returns exactly the list of
label strings — quotes removed but contents verbatim, with no whitespace
trimming applied — and its length equals the number of commas in the text plus
one. -/
theorem wellformed_list_parses_exactly (items : List String) (text : String)
    (objects : List String) (grasp_type : String)
    (h : wellFormedListText items text) :
    filter_objects_by_grasp objects grasp_type text = items ∧
    countComma text.data + 1 = items.length := by
  obtain ⟨h1, h2, h3⟩ := h
  subst h3
  have hsh : String.mk ('[' :: encItems items ++ [']']) =
      String.mk ('[' :: (encItems items ++ [']'])) := by
    simp
  rw [hsh]
  constructor
  · unfold filter_objects_by_grasp
    rw [literalEval_enc items h1 h2]
  · have hdata : (String.mk ('[' :: (encItems items ++ [']']))).data =
        '[' :: (encItems items ++ [']']) := rfl
    rw [hdata]
    have hc : countComma (encItems items) = items.length - 1 := countComma_encItems items h2
    have hcount : countComma ('[' :: (encItems items ++ [']'])) =
        countComma (encItems items) := by
      simp [countComma, countComma_append]
    rw [hcount, hc]
    have hne : items.length ≠ 0 := fun h0 => h1 (List.length_eq_zero.mp h0)
    omega

/-- Witness for `wellformed_list_parses_exactly`. -/
theorem wellformed_list_parses_exactly_w :
    filter_objects_by_grasp ["x"] "g" "[\"a\", \"b\"]" = ["a", "b"] ∧
    countComma ("[\"a\", \"b\"]" : String).data + 1 = 2 :=
  wellformed_list_parses_exactly ["a", "b"] "[\"a\", \"b\"]" ["x"] "g" (by decide)

/-- Claim C7, counterexample: on text where the strict structured parse fails,
the parser does not fall back to a manual tokenizer — it returns the empty
list, not the token list the spec's fallback would produce (shown here on
`[a, b]`, unquoted tokens on which `ast.literal_eval` raises). -/
theorem no_fallback_tokenizer_on_strict_failure :
    literalEvalStrList "[a, b]" = none ∧
    specFallbackTokenize "[a, b]" = ["a", "b"] ∧
    filter_objects_by_grasp ["a", "b"] "g" "[a, b]" = [] ∧
    filter_objects_by_grasp ["a", "b"] "g" "[a, b]" ≠ specFallbackTokenize "[a, b]" := by
  decide

/-- Claim C7 as amended: when the strict structured parse fails, the Exclusion
Filter's parser returns the empty list and the choice extractor returns
nothing; no fallback tokenizer exists in the code. -/
theorem strict_parse_failure_returns_empty (objects : List String)
    (grasp_type question user_choice response : String)
    (h : literalEvalStrList response = none) :
    filter_objects_by_grasp objects grasp_type response = [] ∧
    extract_objects_from_choice question user_choice response = none := by
  constructor
  · unfold filter_objects_by_grasp
    rw [h]
  · unfold extract_objects_from_choice
    exact h

/-- Witness for `strict_parse_failure_returns_empty`. -/
theorem strict_parse_failure_returns_empty_w :
    filter_objects_by_grasp ["pen"] "g" "[a, b]" = [] ∧
    extract_objects_from_choice "Q" "A" "[a, b]" = none :=
  strict_parse_failure_returns_empty ["pen"] "g" "Q" "A" "[a, b]" (by decide)

/-- Claim C10: an oracle response that parses successfully to the empty list
is treated identically to an unparseable response at every call site — the
exclusion parser returns `[]` in both cases, and a loop iteration behaves
identically whichever of the two kinds of extraction response it receives,
because the callers test only truthiness. -/
theorem empty_parse_equals_unparseable (objects : List String)
    (grasp_type q uc r1 r2 : String) (e : List String) (v : List (Finset String))
    (qq t : String) (or ins : List String)
    (h1 : extract_objects_from_choice q uc r1 = none ∨
      extract_objects_from_choice q uc r1 = some [])
    (h2 : extract_objects_from_choice q uc r2 = none ∨
      extract_objects_from_choice q uc r2 = some []) :
    filter_objects_by_grasp objects grasp_type r1 = [] ∧
    filter_objects_by_grasp objects grasp_type r1 =
      filter_objects_by_grasp objects grasp_type r2 ∧
    iterStep e v (qq :: r1 :: or) (t :: ins) = iterStep e v (qq :: r2 :: or) (t :: ins) := by
  have hp1 : literalEvalStrList r1 = none ∨ literalEvalStrList r1 = some [] := h1
  have hp2 : literalEvalStrList r2 = none ∨ literalEvalStrList r2 = some [] := h2
  refine ⟨?_, ?_, ?_⟩
  · unfold filter_objects_by_grasp
    rcases hp1 with h | h <;> rw [h]
  · unfold filter_objects_by_grasp
    rcases hp1 with h | h <;> rcases hp2 with h' | h' <;> rw [h, h']
  · unfold iterStep
    rcases hp1 with h | h <;> rcases hp2 with h' | h' <;>
      simp only [extract_objects_from_choice, h, h', List.isEmpty_nil, if_true]

/-- Witness for `empty_parse_equals_unparseable`. -/
theorem empty_parse_equals_unparseable_w :
    filter_objects_by_grasp ["a"] "g" "garbage" = [] ∧
    filter_objects_by_grasp ["a"] "g" "garbage" = filter_objects_by_grasp ["a"] "g" "[]" ∧
    iterStep ["a", "b", "c"] [] ["Q", "garbage"] ["A"] =
      iterStep ["a", "b", "c"] [] ["Q", "[]"] ["A"] :=
  empty_parse_equals_unparseable ["a"] "g" "Q" "A" "garbage" "[]" ["a", "b", "c"] []
    "Q" "A" [] [] (Or.inl (by decide)) (Or.inr (by decide))

